import Mathlib

/-!
Shallow embedding of the snake-mp server core (src/server.js): room and
player state, food placement, spawn planning, input handling and the
movement step, together with theorems checking the specification.

Randomness (`Math.random`) is modelled by oracle arguments choosing an
index; wall-clock time (`Date.now()`) by an explicit integer argument.
-/

namespace SnakeMP

/-- A grid cell, or a direction vector: integer coordinates as in the JS
objects `{x, y}`. -/
structure Cell where
  x : Int
  y : Int
deriving DecidableEq

/-- Grid dimension, `const GRID = 20`. -/
def GRID : Int := 20

/-- Round duration, `const ROUND_MS = 120_000`. -/
def ROUND_MS : Int := 120000

/-- One player, restricted to the fields the simulation reads and writes
(the connection, name and color play no role in the claims). -/
structure Player where
  score : Nat
  alive : Bool
  respawnAt : Option Int
  snake : List Cell
  dir : Cell
  lastSeq : Int
deriving DecidableEq

/-- Death broadcasts emitted by `killPlayer` (player index, reason,
respawn deadline). -/
inductive Event
  | death (idx : Nat) (reason : String) (respawnAt : Int)
deriving DecidableEq

/-- `room.state`, the string tag `lobby|running|ended`. -/
inductive RState
  | lobby
  | running
  | ended
deriving DecidableEq

/-- Room state as set up by `createRoom`; the player map is modelled as a
list in insertion order, `tickRunning` models whether `tickHandle` holds a
live interval timer. -/
structure Room where
  state : RState
  startedAt : Option Int
  endsAt : Option Int
  tickRunning : Bool
  food : Option Cell
  cps : ℚ
  moveAcc : ℚ
  players : List Player
  events : List Event
deriving DecidableEq

/-- Cells covered by any player's body: the occupancy set built in
`randomFreeCell` and in `moveStep` (every player, dead ones contribute
nothing because `killPlayer` empties the body). -/
def occupancy (ps : List Player) : List Cell :=
  ps.flatMap Player.snake

/-- The free-cell list scanned by `randomFreeCell`: row by row, skipping
cells occupied by a body or by the current food. -/
def freeCells (ps : List Player) (food : Option Cell) : List Cell :=
  (List.range 20).flatMap fun y =>
    (List.range 20).filterMap fun x =>
      let c : Cell := ⟨(x : Int), (y : Int)⟩
      if c ∈ occupancy ps ∨ food = some c then none else some c

/-- `randomFreeCell`: an arbitrary free cell (the random index is the
`choice` oracle), `null` when no cell is free. -/
def randomFreeCell (choice : Nat) (ps : List Player) (food : Option Cell) :
    Option Cell :=
  let free := freeCells ps food
  if free.isEmpty then none else free.get? (choice % free.length)

/-- `placeFood`: `room.food = randomFreeCell(room)`. -/
def placeFood (choice : Nat) (r : Room) : Room :=
  { r with food := randomFreeCell choice r.players r.food }

/-- Update the player at index `i` (mutation of one entry of the player
map). -/
def modifyAt (i : Nat) (f : Player → Player) : List Player → List Player
  | [] => []
  | p :: ps =>
    match i with
    | 0 => f p :: ps
    | j + 1 => p :: modifyAt j f ps

def updatePlayer (i : Nat) (f : Player → Player) (r : Room) : Room :=
  { r with players := modifyAt i f r.players }

/-- `killPlayer`: a no-op on a dead player; otherwise mark dead, set the
respawn deadline `now + 2000`, empty the body and emit a death event. -/
def killPlayer (tnow : Int) (reason : String) (i : Nat) (r : Room) : Room :=
  match r.players.get? i with
  | none => r
  | some p =>
    if p.alive then
      { updatePlayer i
          (fun q => { q with alive := false,
                             respawnAt := some (tnow + 2000),
                             snake := [] }) r with
        events := r.events ++ [Event.death i reason (tnow + 2000)] }
    else r

/-! ## Spawn planning (`safeSpawn`) -/

/-- A spawn result: 3-cell body (tail to head) plus direction. -/
structure Spawn where
  snake : List Cell
  dir : Cell
deriving DecidableEq

/-- `0 ≤ x < GRID` on both axes (the bound check
`c.x >= 0 && c.y >= 0 && c.x < GRID && c.y < GRID`). -/
def InBounds (c : Cell) : Prop :=
  0 ≤ c.x ∧ 0 ≤ c.y ∧ c.x < GRID ∧ c.y < GRID

instance (c : Cell) : Decidable (InBounds c) := by
  unfold InBounds; infer_instance

/-- The four corner presets of `safeSpawn` (head, direction). -/
def presets : List (Cell × Cell) :=
  [(⟨3, 3⟩, ⟨1, 0⟩), (⟨GRID - 4, 3⟩, ⟨-1, 0⟩),
   (⟨3, GRID - 4⟩, ⟨1, 0⟩), (⟨GRID - 4, GRID - 4⟩, ⟨-1, 0⟩)]

/-- The 3-cell body behind a head along a direction:
`[head - 2d, head - d, head]`. -/
def spawnCells (head d : Cell) : List Cell :=
  [⟨head.x - d.x * 2, head.y - d.y * 2⟩,
   ⟨head.x - d.x, head.y - d.y⟩,
   head]

/-- Does any existing body cover `c`? (the collision test of the preset
loop). -/
def coveredBy (ps : List Player) (c : Cell) : Bool :=
  ps.any fun p => p.snake.any fun s => s.x = c.x && s.y = c.y

/-- The preset loop of `safeSpawn`: first preset whose three cells are
in bounds and collide with no existing body wins. -/
def tryPresets (ps : List Player) : List (Cell × Cell) → Option Spawn
  | [] => none
  | (h, d) :: rest =>
    let cells := spawnCells h d
    if cells.all (fun c => decide (InBounds c)) &&
       cells.all (fun c => !coveredBy ps c) then
      some ⟨cells, d⟩
    else tryPresets ps rest

/-- The four axis directions drawn by `randInt(0, 3)` in the fallback. -/
def axisDirs : List Cell := [⟨1, 0⟩, ⟨-1, 0⟩, ⟨0, 1⟩, ⟨0, -1⟩]

/-- The randomized fallback loop of `safeSpawn` (up to 300 attempts):
random free head, random axis direction, accept if the 3-cell body is
fully in bounds; a `null` from `randomFreeCell` breaks out. The oracle
gives each attempt its two random draws. -/
def spawnFallback (oracle : Nat → Nat × Nat) (ps : List Player)
    (food : Option Cell) : Nat → Option Spawn
  | 0 => none
  | n + 1 =>
    match randomFreeCell (oracle n).1 ps food with
    | none => none
    | some head =>
      let d := axisDirs.getD ((oracle n).2 % 4) ⟨1, 0⟩
      let cells := spawnCells head d
      if cells.all (fun c => decide (InBounds c)) then some ⟨cells, d⟩
      else spawnFallback oracle ps food n

/-- `safeSpawn`: presets, then the randomized fallback, then the fixed
worst-case body. -/
def safeSpawn (oracle : Nat → Nat × Nat) (ps : List Player)
    (food : Option Cell) : Spawn :=
  match tryPresets ps presets with
  | some s => s
  | none =>
    match spawnFallback oracle ps food 300 with
    | some s => s
    | none => ⟨[⟨1, 1⟩, ⟨2, 1⟩, ⟨3, 1⟩], ⟨1, 0⟩⟩

/-! ## Input handling -/

/-- `clamp(v, a, b) = Math.max(a, Math.min(b, v))`. -/
def clamp (v a b : Int) : Int := max a (min b v)

/-- The sanitization applied by the `input` message handler to a direction
whose components are numbers: each component clamped into `[-1, 1]`. -/
def sanitizeDir (d : Cell) : Cell :=
  ⟨clamp d.x (-1) 1, clamp d.y (-1) 1⟩

/-- `applyInput`: ignore a null input and ignore the exact reverse of the
current direction; otherwise adopt the input direction. -/
def applyInput (p : Player) (inputDir : Option Cell) : Player :=
  match inputDir with
  | none => p
  | some d =>
    if d.x = -p.dir.x ∧ d.y = -p.dir.y then p
    else { p with dir := d }

/-- The acknowledged-sequence update shared by the `input` handler and the
tick loop: `if (seq > (p.lastSeq || 0)) p.lastSeq = seq`; a missing `seq`
field reads as `0`. -/
def ackInput (p : Player) (seq : Option Int) : Player :=
  let s := seq.getD 0
  if p.lastSeq < s then { p with lastSeq := s } else p

/-- The spec's notion of a legal direction: one of the four axis-aligned
unit vectors (used only to compare the spec's wording against the code's
sanitization). -/
def IsUnitDir (d : Cell) : Prop := d ∈ axisDirs

instance (d : Cell) : Decidable (IsUnitDir d) := by
  unfold IsUnitDir; infer_instance

/-! ## Movement step (`moveStep`) -/

/-- Next head of a player: current head (last body cell) plus direction. -/
def nextHead (p : Player) : Option Cell :=
  p.snake.getLast?.map fun h => ⟨h.x + p.dir.x, h.y + p.dir.y⟩

/-- The `next` list of `moveStep` starting at player index `i`: (index,
next head) for every alive player with a non-empty body, in player
order. -/
def computeNextFrom (i : Nat) : List Player → List (Nat × Cell)
  | [] => []
  | p :: ps =>
    if p.alive then
      match nextHead p with
      | some m => (i, m) :: computeNextFrom (i + 1) ps
      | none => computeNextFrom (i + 1) ps
    else computeNextFrom (i + 1) ps

def computeNext (ps : List Player) : List (Nat × Cell) :=
  computeNextFrom 0 ps

/-- The tail half of a successful move (the head is already appended in
`r1`): if the new head `m` equals the current food cell, add 10 to the
score and place new food; otherwise shift the tail. -/
def resolveEat (oracle : Nat) (m : Cell) (i : Nat) (r1 : Room) : Room :=
  match r1.food with
  | some f =>
    if m = f then
      placeFood oracle
        (updatePlayer i (fun p => { p with score := p.score + 10 }) r1)
    else
      updatePlayer i (fun p => { p with snake := p.snake.tail }) r1
  | none =>
    updatePlayer i (fun p => { p with snake := p.snake.tail }) r1

/-- Resolution of one queued move against the pre-move occupancy `body`:
wall kill, body kill, or append the head and let `resolveEat` finish. -/
def resolveOne (oracle : Nat) (tnow : Int) (body : List Cell) (r : Room)
    (i : Nat) (m : Cell) : Room :=
  if m.x < 0 ∨ m.y < 0 ∨ GRID ≤ m.x ∨ GRID ≤ m.y then
    killPlayer tnow "wall" i r
  else if m ∈ body then
    killPlayer tnow "body" i r
  else
    resolveEat oracle m i
      (updatePlayer i (fun p => { p with snake := p.snake ++ [m] }) r)

/-- The resolution loop of `moveStep`, in queue order, against the fixed
pre-move occupancy set. -/
def resolveAll (oracle : Nat) (tnow : Int) (body : List Cell) :
    List (Nat × Cell) → Room → Room
  | [], r => r
  | (i, m) :: rest, r =>
    resolveAll oracle tnow body rest (resolveOne oracle tnow body r i m)

/-- `moveStep`: queue all next heads, capture the pre-move occupancy set,
then resolve each move against it. -/
def moveStep (oracle : Nat) (tnow : Int) (r : Room) : Room :=
  resolveAll oracle tnow (occupancy r.players) (computeNext r.players) r

/-- The bounds invariant of the spec: every alive player's body cells lie
within `[0, GRID)` on both axes. -/
def AliveInBounds (ps : List Player) : Prop :=
  ∀ p ∈ ps, p.alive = true → ∀ c ∈ p.snake, InBounds c

instance (ps : List Player) : Decidable (AliveInBounds ps) := by
  unfold AliveInBounds
  infer_instance

/-! ## Tick-rate decoupling (`tick`, lines 286-305) -/

/-- `TICK_MS / 1000`, the constant the tick adds to the accumulator
(`TICK_MS = 1000 / TICK_HZ` with `TICK_HZ = 20`). -/
def tickSeconds : ℚ := (1000 / 20) / 1000

/-- `const step = 1 / room.cps`. -/
def stepDuration (cps : ℚ) : ℚ := 1 / cps

/-- The accumulator after the tick's update:
`moveAcc += TICK_MS / 1000; moveAcc = Math.min(moveAcc, step * 2)`. -/
def accAfterClamp (acc cps : ℚ) : ℚ :=
  min (acc + tickSeconds) (stepDuration cps * 2)

/-- Modelled from the spec: the accumulator update the spec describes,
"add elapsed real seconds since the previous tick to the accumulator;
clamp the accumulator to at most two step-durations". The code under
`src/` adds the fixed nominal tick duration instead; this definition
exists to compare the two. -/
def accAfterClampSpec (acc elapsed cps : ℚ) : ℚ :=
  min (acc + elapsed) (stepDuration cps * 2)

/-- Number of iterations `while (moveAcc >= step) { ...; moveAcc -= step }`
performs, with explicit fuel (the loop itself has no bound; the theorems
show any fuel at least 2 gives the same count once the clamp ran). -/
def movementSteps : Nat → ℚ → ℚ → Nat
  | 0, _, _ => 0
  | fuel + 1, acc, step =>
    if step ≤ acc then movementSteps fuel (acc - step) step + 1 else 0

/-! ## Round lifecycle (`startRound`, `endRound`) -/

/-- The player-reset loop of `startRound`: each player in turn is
respawned via `safeSpawn` (which sees the bodies already reassigned to
earlier players), revived, and has score reset to 0. -/
def respawnFrom (oracle : Nat → Nat → Nat × Nat) : Nat → Nat → Room → Room
  | _, 0, r => r
  | i, k + 1, r =>
    let sp := safeSpawn (oracle i) r.players r.food
    respawnFrom oracle (i + 1) k
      (updatePlayer i
        (fun p => { p with snake := sp.snake, dir := sp.dir, alive := true,
                           respawnAt := none, score := 0 }) r)

/-- `startRound`: a no-op when the room is already `running`; otherwise
set `running`, record `startedAt`/`endsAt`, reset every player, place
food and start the tick driver. -/
def startRound (tnow : Int) (oracle : Nat → Nat → Nat × Nat)
    (foodChoice : Nat) (r : Room) : Room :=
  if r.state = RState.running then r
  else
    let r1 := { r with state := RState.running,
                       startedAt := some tnow,
                       endsAt := some (tnow + ROUND_MS) }
    let r2 := respawnFrom oracle 0 r1.players.length r1
    let r3 := placeFood foodChoice r2
    { r3 with tickRunning := true }

/-- `endRound`: a no-op unless `running`; otherwise set `ended` and stop
the tick driver. -/
def endRound (r : Room) : Room :=
  if r.state ≠ RState.running then r
  else { r with state := RState.ended, tickRunning := false }

/-! ## Concrete states used by witnesses and counterexamples -/

/-- A room whose round has ended: state `ended`, tick driver stopped, as
`endRound` leaves it. -/
def endedRoom : Room :=
  { state := RState.ended, startedAt := some 0, endsAt := some 120000,
    tickRunning := false, food := none, cps := 15 / 2, moveAcc := 0,
    players := [], events := [] }

/-- A dead player (as `killPlayer` leaves one: body empty, deadline set). -/
def deadPlayer : Player :=
  { score := 30, alive := false, respawnAt := some 2000, snake := [],
    dir := ⟨1, 0⟩, lastSeq := 4 }

/-- A running room containing one dead player. -/
def deadRoom : Room :=
  { state := RState.running, startedAt := some 0, endsAt := some 120000,
    tickRunning := true, food := some ⟨5, 5⟩, cps := 15 / 2, moveAcc := 0,
    players := [deadPlayer], events := [] }

/-- Two players whose heads both move into the still-vacant cell (1, 1). -/
def passP0 : Player :=
  { score := 0, alive := true, respawnAt := none, snake := [⟨1, 0⟩],
    dir := ⟨0, 1⟩, lastSeq := 0 }

def passP1 : Player :=
  { score := 0, alive := true, respawnAt := none, snake := [⟨1, 2⟩],
    dir := ⟨0, -1⟩, lastSeq := 0 }

def passRoom : Room :=
  { state := RState.running, startedAt := some 0, endsAt := some 120000,
    tickRunning := true, food := none, cps := 15 / 2, moveAcc := 0,
    players := [passP0, passP1], events := [] }

/-- A one-player room about to eat: the head (0, 0) moves right onto the
food at (1, 0). -/
def eatP : Player :=
  { score := 0, alive := true, respawnAt := none, snake := [⟨0, 0⟩],
    dir := ⟨1, 0⟩, lastSeq := 0 }

def eatRoom : Room :=
  { state := RState.running, startedAt := some 0, endsAt := some 120000,
    tickRunning := true, food := some ⟨1, 0⟩, cps := 15 / 2, moveAcc := 0,
    players := [eatP], events := [] }

/-! ## Helper lemmas -/

theorem mem_occupancy {c : Cell} {ps : List Player} :
    c ∈ occupancy ps ↔ ∃ p ∈ ps, c ∈ p.snake := by
  simp [occupancy]

theorem mem_freeCells_not_occupied {c : Cell} {ps : List Player}
    {food : Option Cell} (h : c ∈ freeCells ps food) : c ∉ occupancy ps := by
  simp only [freeCells, List.mem_flatMap, List.mem_filterMap,
    List.mem_range] at h
  obtain ⟨y, -, x, -, hx⟩ := h
  by_cases hc : (⟨(x : Int), (y : Int)⟩ : Cell) ∈ occupancy ps ∨
      food = some ⟨(x : Int), (y : Int)⟩
  · simp [hc] at hx
  · simp only [hc, if_false, Option.some.injEq] at hx
    subst hx
    exact fun hmem => hc (Or.inl hmem)

theorem modifyAt_get?_self (i : Nat) (f : Player → Player) (l : List Player) :
    (modifyAt i f l).get? i = (l.get? i).map f := by
  induction l generalizing i with
  | nil => simp [modifyAt]
  | cons p ps ih =>
    cases i with
    | zero => simp [modifyAt]
    | succ j => simpa [modifyAt] using ih j

theorem modifyAt_get?_ne (i j : Nat) (f : Player → Player) (l : List Player)
    (h : j ≠ i) : (modifyAt i f l).get? j = l.get? j := by
  induction l generalizing i j with
  | nil => simp [modifyAt]
  | cons p ps ih =>
    cases i with
    | zero =>
      cases j with
      | zero => exact absurd rfl h
      | succ j2 => simp [modifyAt]
    | succ i2 =>
      cases j with
      | zero => simp [modifyAt]
      | succ j2 =>
        simpa [modifyAt] using ih i2 j2 (fun he => h (by rw [he]))

theorem mem_modifyAt {q : Player} {i : Nat} {f : Player → Player}
    {l : List Player} (h : q ∈ modifyAt i f l) :
    q ∈ l ∨ ∃ p ∈ l, q = f p := by
  induction l generalizing i with
  | nil => simp [modifyAt] at h
  | cons p ps ih =>
    cases i with
    | zero =>
      rcases List.mem_cons.mp h with h1 | h1
      · exact Or.inr ⟨p, List.mem_cons_self p ps, h1⟩
      · exact Or.inl (List.mem_cons_of_mem p h1)
    | succ j =>
      rcases List.mem_cons.mp h with h1 | h1
      · exact Or.inl (h1 ▸ List.mem_cons_self p ps)
      · rcases ih h1 with h2 | ⟨p2, hp2, he⟩
        · exact Or.inl (List.mem_cons_of_mem p h2)
        · exact Or.inr ⟨p2, List.mem_cons_of_mem p hp2, he⟩

theorem updatePlayer_food (i : Nat) (f : Player → Player) (r : Room) :
    (updatePlayer i f r).food = r.food := rfl

theorem placeFood_players (choice : Nat) (r : Room) :
    (placeFood choice r).players = r.players := rfl

theorem updatePlayer_get?_ne (i j : Nat) (f : Player → Player) (r : Room)
    (h : j ≠ i) :
    (updatePlayer i f r).players.get? j = r.players.get? j :=
  modifyAt_get?_ne i j f r.players h

theorem killPlayer_get?_ne (tnow : Int) (reason : String) (i j : Nat)
    (r : Room) (h : j ≠ i) :
    (killPlayer tnow reason i r).players.get? j = r.players.get? j := by
  unfold killPlayer
  cases hg : r.players.get? i with
  | none => rfl
  | some p =>
    dsimp only
    by_cases ha : p.alive
    · rw [if_pos ha]
      exact updatePlayer_get?_ne i j _ r h
    · rw [if_neg ha]

theorem resolveEat_get?_ne (oracle : Nat) (m : Cell) (i : Nat) (r1 : Room)
    (j : Nat) (h : j ≠ i) :
    (resolveEat oracle m i r1).players.get? j = r1.players.get? j := by
  unfold resolveEat
  cases hf : r1.food with
  | some f =>
    dsimp only
    by_cases hm : m = f
    · rw [if_pos hm, placeFood_players]
      exact updatePlayer_get?_ne i j _ _ h
    · rw [if_neg hm]
      exact updatePlayer_get?_ne i j _ _ h
  | none =>
    exact updatePlayer_get?_ne i j _ _ h

theorem resolveOne_get?_ne (oracle : Nat) (tnow : Int) (body : List Cell)
    (r : Room) (i : Nat) (m : Cell) (j : Nat) (h : j ≠ i) :
    (resolveOne oracle tnow body r i m).players.get? j = r.players.get? j := by
  unfold resolveOne
  split
  · exact killPlayer_get?_ne _ _ _ _ _ h
  · split
    · exact killPlayer_get?_ne _ _ _ _ _ h
    · exact (resolveEat_get?_ne _ _ _ _ _ h).trans
        (updatePlayer_get?_ne i j _ _ h)

theorem tail_append_singleton {s : List Cell} {m : Cell} (h : s ≠ []) :
    (s ++ [m]).tail = s.tail ++ [m] := by
  cases s with
  | nil => exact absurd rfl h
  | cons a t => rfl

theorem resolveEat_eats (oracle : Nat) (m : Cell) (i : Nat) (r1 : Room)
    (hf : r1.food = some m) :
    resolveEat oracle m i r1 =
      placeFood oracle
        (updatePlayer i (fun p => { p with score := p.score + 10 }) r1) := by
  unfold resolveEat
  rw [hf]
  dsimp only
  rw [if_pos rfl]

theorem resolveEat_misses (oracle : Nat) (m : Cell) (i : Nat) (r1 : Room)
    (hf : r1.food ≠ some m) :
    resolveEat oracle m i r1 =
      updatePlayer i (fun p => { p with snake := p.snake.tail }) r1 := by
  unfold resolveEat
  cases hg : r1.food with
  | none => rfl
  | some f =>
    dsimp only
    rw [if_neg (fun hm : m = f => hf (hg.trans (by rw [hm])))]

theorem resolveOne_push (oracle : Nat) (tnow : Int) (body : List Cell)
    (r : Room) (i : Nat) (m : Cell)
    (hwall : ¬(m.x < 0 ∨ m.y < 0 ∨ GRID ≤ m.x ∨ GRID ≤ m.y))
    (hbody : m ∉ body) :
    resolveOne oracle tnow body r i m =
      resolveEat oracle m i
        (updatePlayer i (fun p => { p with snake := p.snake ++ [m] }) r) := by
  unfold resolveOne
  rw [if_neg hwall, if_neg hbody]

theorem aliveInBounds_modifyAt {ps : List Player} {i : Nat}
    {f : Player → Player} (h : AliveInBounds ps)
    (hf : ∀ p ∈ ps, (p.alive = true → ∀ c ∈ p.snake, InBounds c) →
      ((f p).alive = true → ∀ c ∈ (f p).snake, InBounds c)) :
    AliveInBounds (modifyAt i f ps) := by
  intro q hq
  rcases mem_modifyAt hq with hq2 | ⟨p, hp, rfl⟩
  · exact h q hq2
  · exact hf p hp (h p hp)

theorem aliveInBounds_killPlayer (tnow : Int) (reason : String) (i : Nat)
    (r : Room) (h : AliveInBounds r.players) :
    AliveInBounds (killPlayer tnow reason i r).players := by
  unfold killPlayer
  cases hg : r.players.get? i with
  | none => exact h
  | some p =>
    dsimp only
    by_cases ha : p.alive
    · rw [if_pos ha]
      exact aliveInBounds_modifyAt h
        (fun p2 _ _ hal => absurd hal (by simp))
    · rw [if_neg ha]
      exact h

theorem aliveInBounds_resolveEat (oracle : Nat) (m : Cell) (i : Nat)
    (r1 : Room) (h : AliveInBounds r1.players) :
    AliveInBounds (resolveEat oracle m i r1).players := by
  unfold resolveEat
  cases hg : r1.food with
  | none =>
    exact aliveInBounds_modifyAt h
      (fun p2 _ hp hal c hc => hp hal c (List.mem_of_mem_tail hc))
  | some f =>
    dsimp only
    by_cases hm : m = f
    · rw [if_pos hm, placeFood_players]
      exact aliveInBounds_modifyAt h (fun p2 _ hp => hp)
    · rw [if_neg hm]
      exact aliveInBounds_modifyAt h
        (fun p2 _ hp hal c hc => hp hal c (List.mem_of_mem_tail hc))

theorem aliveInBounds_resolveOne (oracle : Nat) (tnow : Int)
    (body : List Cell) (r : Room) (i : Nat) (m : Cell)
    (h : AliveInBounds r.players) :
    AliveInBounds (resolveOne oracle tnow body r i m).players := by
  unfold resolveOne
  split
  · exact aliveInBounds_killPlayer _ _ _ _ h
  · split
    · exact aliveInBounds_killPlayer _ _ _ _ h
    · rename_i hwall hbody
      have hin : InBounds m := by
        push_neg at hwall
        exact ⟨hwall.1, hwall.2.1, hwall.2.2.1, hwall.2.2.2⟩
      apply aliveInBounds_resolveEat
      exact aliveInBounds_modifyAt h (fun p2 _ hp hal c hc => by
        rcases List.mem_append.mp hc with hc1 | hc2
        · exact hp hal c hc1
        · rw [List.mem_singleton.mp hc2]
          exact hin)

theorem aliveInBounds_resolveAll (oracle : Nat) (tnow : Int)
    (body : List Cell) :
    ∀ (l : List (Nat × Cell)) (r : Room), AliveInBounds r.players →
      AliveInBounds (resolveAll oracle tnow body l r).players
  | [], _, h => h
  | (i, m) :: rest, r, h =>
    aliveInBounds_resolveAll oracle tnow body rest _
      (aliveInBounds_resolveOne oracle tnow body r i m h)

theorem updatePlayer_get?_self (i : Nat) (f : Player → Player) (r : Room) :
    (updatePlayer i f r).players.get? i = (r.players.get? i).map f :=
  modifyAt_get?_self i f r.players

theorem tryPresets_inBounds :
    ∀ (ps : List Player) (l : List (Cell × Cell)) (s : Spawn),
      tryPresets ps l = some s → ∀ c ∈ s.snake, InBounds c
  | _, [], _, h => by simp [tryPresets] at h
  | ps, (hd, d) :: rest, s, h => by
    unfold tryPresets at h
    dsimp only at h
    split at h
    · rename_i hcond
      cases h
      intro c hc
      have h1 := (Bool.and_eq_true _ _).mp hcond
      exact of_decide_eq_true (List.all_eq_true.mp h1.1 c hc)
    · exact tryPresets_inBounds ps rest s h

theorem spawnFallback_inBounds (oracle : Nat → Nat × Nat) (ps : List Player)
    (food : Option Cell) :
    ∀ (n : Nat) (s : Spawn), spawnFallback oracle ps food n = some s →
      ∀ c ∈ s.snake, InBounds c
  | 0, _, h => by simp [spawnFallback] at h
  | n + 1, s, h => by
    unfold spawnFallback at h
    cases hrc : randomFreeCell (oracle n).1 ps food with
    | none => rw [hrc] at h; cases h
    | some head =>
      rw [hrc] at h
      dsimp only at h
      split at h
      · rename_i hcond
        cases h
        intro c hc
        exact of_decide_eq_true (List.all_eq_true.mp hcond c hc)
      · exact spawnFallback_inBounds oracle ps food n s h

theorem safeSpawn_inBounds (oracle : Nat → Nat × Nat) (ps : List Player)
    (food : Option Cell) :
    ∀ c ∈ (safeSpawn oracle ps food).snake, InBounds c := by
  unfold safeSpawn
  cases ht : tryPresets ps presets with
  | some s => exact tryPresets_inBounds ps presets s ht
  | none =>
    cases hf : spawnFallback oracle ps food 300 with
    | some s => exact spawnFallback_inBounds oracle ps food 300 s hf
    | none =>
      intro c hc
      simp only [List.mem_cons, List.not_mem_nil, or_false] at hc
      rcases hc with rfl | rfl | rfl <;> decide

theorem movementSteps_eq_zero (fuel : Nat) (acc step : ℚ) (h : acc < step) :
    movementSteps fuel acc step = 0 := by
  cases fuel with
  | zero => rfl
  | succ n =>
    unfold movementSteps
    rw [if_neg (not_le.mpr h)]

theorem movementSteps_le_one (fuel : Nat) (acc step : ℚ) (hs : 0 < step)
    (h : acc ≤ step) : movementSteps fuel acc step ≤ 1 := by
  cases fuel with
  | zero => exact Nat.zero_le 1
  | succ n =>
    unfold movementSteps
    split
    · rw [movementSteps_eq_zero n (acc - step) step (by linarith)]
    · exact Nat.zero_le 1

theorem movementSteps_le_two (fuel : Nat) (acc step : ℚ) (hs : 0 < step)
    (h : acc ≤ step * 2) : movementSteps fuel acc step ≤ 2 := by
  cases fuel with
  | zero => exact Nat.zero_le 2
  | succ n =>
    unfold movementSteps
    split
    · have := movementSteps_le_one n (acc - step) step hs (by linarith)
      omega
    · exact Nat.zero_le 2

theorem foldl_ackInput_le (msgs : List (Option Int)) :
    ∀ p : Player, p.lastSeq ≤ (msgs.foldl ackInput p).lastSeq := by
  induction msgs with
  | nil => intro p; exact le_refl _
  | cons s rest ih =>
    intro p
    refine le_trans ?_ (ih (ackInput p s))
    unfold ackInput
    dsimp only
    split
    · exact le_of_lt (by assumption)
    · exact le_refl _

theorem respawnFrom_fields (oracle : Nat → Nat → Nat × Nat) :
    ∀ (k i : Nat) (r : Room),
      (respawnFrom oracle i k r).state = r.state ∧
      (respawnFrom oracle i k r).startedAt = r.startedAt ∧
      (respawnFrom oracle i k r).endsAt = r.endsAt
  | 0, _, _ => ⟨rfl, rfl, rfl⟩
  | k + 1, i, r =>
    respawnFrom_fields oracle k (i + 1)
      (updatePlayer i
        (fun p => { p with snake := (safeSpawn (oracle i) r.players r.food).snake,
                           dir := (safeSpawn (oracle i) r.players r.food).dir,
                           alive := true, respawnAt := none, score := 0 }) r)

theorem resolveOne_success (oracle : Nat) (tnow : Int) (body : List Cell)
    (r : Room) (i : Nat) (m : Cell) (p : Player)
    (hp : r.players.get? i = some p)
    (hwall : ¬(m.x < 0 ∨ m.y < 0 ∨ GRID ≤ m.x ∨ GRID ≤ m.y))
    (hbody : m ∉ body) (hne : p.snake ≠ []) :
    ∃ q, (resolveOne oracle tnow body r i m).players.get? i = some q ∧
      q.alive = p.alive ∧ q.snake.getLast? = some m := by
  rw [resolveOne_push oracle tnow body r i m hwall hbody]
  set r1 := updatePlayer i (fun p => { p with snake := p.snake ++ [m] }) r
    with hr1
  have hr1p : r1.players.get? i = some { p with snake := p.snake ++ [m] } := by
    rw [hr1, updatePlayer_get?_self, hp]; rfl
  by_cases hfm : r1.food = some m
  · rw [resolveEat_eats oracle m i r1 hfm]
    refine ⟨{ p with snake := p.snake ++ [m], score := p.score + 10 },
      by rw [placeFood_players, updatePlayer_get?_self, hr1p]; rfl,
      rfl, ?_⟩
    exact List.getLast?_concat _
  · rw [resolveEat_misses oracle m i r1 hfm]
    refine ⟨{ p with snake := (p.snake ++ [m]).tail },
      by rw [updatePlayer_get?_self, hr1p]; rfl, rfl, ?_⟩
    show ((p.snake ++ [m]).tail).getLast? = some m
    rw [tail_append_singleton hne]
    exact List.getLast?_concat _

/-! ## Claim theorems -/

/-- C5: whenever food is placed (`placeFood`, called at round start, on
join when absent, and on each consumption), the chosen cell is not
covered by any player's body at the moment of placement; when no free
cell exists the food becomes absent instead. -/
theorem placeFood_avoids_bodies (choice : Nat) (r : Room) :
    ((placeFood choice r).food = none ∧ freeCells r.players r.food = []) ∨
    (∃ c, (placeFood choice r).food = some c ∧ c ∉ occupancy r.players) := by
  have hfood : (placeFood choice r).food =
      randomFreeCell choice r.players r.food := rfl
  rw [hfood]
  unfold randomFreeCell
  dsimp only
  by_cases he : (freeCells r.players r.food).isEmpty
  · left
    exact ⟨by rw [if_pos he], List.isEmpty_iff.mp he⟩
  · right
    rw [if_neg he]
    have hlen : 0 < (freeCells r.players r.food).length := by
      cases hq : freeCells r.players r.food with
      | nil => rw [hq] at he; simp at he
      | cons a t => simp [hq]
    have hlt : choice % (freeCells r.players r.food).length <
        (freeCells r.players r.food).length := Nat.mod_lt _ hlen
    refine ⟨(freeCells r.players r.food).get ⟨_, hlt⟩,
      List.get?_eq_get hlt, ?_⟩
    exact mem_freeCells_not_occupied (List.get_mem _ _ hlt)

/-- C6 counterexample: the `input` handler's sanitization only clamps each
component into `[-1, 1]`; a diagonal direction such as (1, 1) survives it
and, not being the reverse of (1, 0), is applied, leaving the player with
a direction that is not an axis-aligned unit vector. -/
theorem sanitize_allows_diagonal_cex :
    (applyInput
        { score := 0, alive := true, respawnAt := none, snake := [],
          dir := ⟨1, 0⟩, lastSeq := 0 }
        (some (sanitizeDir ⟨1, 1⟩))).dir = (⟨1, 1⟩ : Cell) ∧
    ¬ IsUnitDir ⟨1, 1⟩ := by
  decide

/-- C6 amended: the sanitization guarantees only that each accepted
direction component lies in the interval `[-1, 1]`, and `applyInput`
either keeps the old direction or adopts the sanitized one — the shape
"axis-aligned unit vector" is not enforced. -/
theorem sanitizeDir_range (d : Cell) (p : Player) :
    -1 ≤ (sanitizeDir d).x ∧ (sanitizeDir d).x ≤ 1 ∧
    -1 ≤ (sanitizeDir d).y ∧ (sanitizeDir d).y ≤ 1 ∧
    ((applyInput p (some (sanitizeDir d))).dir = p.dir ∨
      (applyInput p (some (sanitizeDir d))).dir = sanitizeDir d) := by
  refine ⟨le_max_left _ _, ?_, le_max_left _ _, ?_, ?_⟩
  · exact max_le (by norm_num) (min_le_left _ _)
  · exact max_le (by norm_num) (min_le_left _ _)
  · unfold applyInput
    dsimp only
    split
    · exact Or.inl rfl
    · exact Or.inr rfl

/-- C7: the acknowledged sequence number is monotone non-decreasing under
the update shared by the `input` handler and the tick loop — a single
update never lowers it and raises it only past a strictly larger
sequence, and any sequence of received inputs leaves it no lower. -/
theorem ackSeq_monotone (p : Player) (seq : Option Int)
    (msgs : List (Option Int)) :
    p.lastSeq ≤ (ackInput p seq).lastSeq ∧
    ((ackInput p seq).lastSeq = p.lastSeq ∨
      (p.lastSeq < seq.getD 0 ∧ (ackInput p seq).lastSeq = seq.getD 0)) ∧
    p.lastSeq ≤ (msgs.foldl ackInput p).lastSeq := by
  refine ⟨?_, ?_, foldl_ackInput_le msgs p⟩
  · unfold ackInput
    dsimp only
    split
    · exact le_of_lt (by assumption)
    · exact le_refl _
  · unfold ackInput
    dsimp only
    split
    · exact Or.inr ⟨by assumption, rfl⟩
    · exact Or.inl rfl

/-- C8: a buffered direction exactly opposite the player's current
direction is never applied — `applyInput` leaves the direction
unchanged. -/
theorem applyInput_rejects_reverse (p : Player) (d : Cell)
    (hx : d.x = -p.dir.x) (hy : d.y = -p.dir.y) :
    (applyInput p (some d)).dir = p.dir := by
  unfold applyInput
  dsimp only
  rw [if_pos ⟨hx, hy⟩]

/-- C8 witness: a player moving right ignores a buffered left input. -/
theorem applyInput_rejects_reverse_witness :
    (applyInput
        { score := 0, alive := true, respawnAt := none, snake := [],
          dir := ⟨1, 0⟩, lastSeq := 0 }
        (some ⟨-1, 0⟩)).dir = (⟨1, 0⟩ : Cell) :=
  applyInput_rejects_reverse _ ⟨-1, 0⟩ (by decide) (by decide)

/-- C10: killing an already-dead player is a no-op — the room, including
its event log, is returned unchanged, so at most one death event is
emitted per life. -/
theorem killPlayer_dead_noop (tnow : Int) (reason : String) (i : Nat)
    (r : Room) (p : Player) (hp : r.players.get? i = some p)
    (hdead : p.alive = false) :
    killPlayer tnow reason i r = r := by
  unfold killPlayer
  rw [hp]
  dsimp only
  rw [if_neg (by rw [hdead]; exact Bool.false_ne_true)]

/-- C10 witness: killing the dead player of `deadRoom` changes nothing. -/
theorem killPlayer_dead_noop_witness :
    killPlayer 999 "wall" 0 deadRoom = deadRoom :=
  killPlayer_dead_noop 999 "wall" 0 deadRoom deadPlayer rfl rfl

/-- C2 counterexample: the tick adds the fixed nominal tick duration
(1/20 s) to the accumulator, not the elapsed real seconds since the
previous tick: after a 1-second scheduling delay the spec's update and
the code's update disagree at the base speed 7.5 cells/s. -/
theorem accumulator_uses_fixed_tick_cex :
    accAfterClamp 0 (15 / 2) ≠ accAfterClampSpec 0 1 (15 / 2) := by
  norm_num [accAfterClamp, accAfterClampSpec, tickSeconds, stepDuration,
    min_def]

/-- C2 amended: each tick increases the accumulator by the fixed nominal
tick duration `TICK_MS / 1000` (independent of real elapsed time) and
clamps it to at most two step-durations, so the movement loop runs at
most two steps in any single tick. -/
theorem accumulator_clamp_bounds_steps (acc cps : ℚ) (fuel : Nat)
    (hcps : 0 < cps) :
    accAfterClamp acc cps ≤ stepDuration cps * 2 ∧
    movementSteps fuel (accAfterClamp acc cps) (stepDuration cps) ≤ 2 := by
  have hstep : 0 < stepDuration cps := by
    unfold stepDuration
    positivity
  exact ⟨min_le_right _ _,
    movementSteps_le_two fuel _ _ hstep (min_le_right _ _)⟩

/-- C2 witness: the bound at the base speed 7.5 cells/s with fuel 5. -/
theorem accumulator_clamp_bounds_steps_witness :
    accAfterClamp 0 (15 / 2) ≤ stepDuration (15 / 2) * 2 ∧
    movementSteps 5 (accAfterClamp 0 (15 / 2)) (stepDuration (15 / 2)) ≤ 2 :=
  accumulator_clamp_bounds_steps 0 (15 / 2) 5 (by norm_num)

/-- C3: for a player whose movement step succeeds (new head in bounds and
not in the pre-move occupancy set), if the new head equals the current
food cell the score grows by exactly 10, the body by exactly one cell
(tail kept) and a new food placement is requested; otherwise the old
tail cell is removed, the length is unchanged and the food stays. -/
theorem moveStep_food_outcome (oracle : Nat) (tnow : Int) (body : List Cell)
    (r : Room) (i : Nat) (m : Cell) (p : Player)
    (hp : r.players.get? i = some p)
    (hwall : ¬(m.x < 0 ∨ m.y < 0 ∨ GRID ≤ m.x ∨ GRID ≤ m.y))
    (hbody : m ∉ body) (hne : p.snake ≠ []) :
    ∃ q, (resolveOne oracle tnow body r i m).players.get? i = some q ∧
      (if r.food = some m then
        q.score = p.score + 10 ∧ q.snake = p.snake ++ [m] ∧
        q.snake.length = p.snake.length + 1 ∧
        (resolveOne oracle tnow body r i m).food =
          randomFreeCell oracle
            (resolveOne oracle tnow body r i m).players r.food
      else
        q.score = p.score ∧ q.snake = p.snake.tail ++ [m] ∧
        q.snake.length = p.snake.length ∧
        (resolveOne oracle tnow body r i m).food = r.food) := by
  rw [resolveOne_push oracle tnow body r i m hwall hbody]
  set r1 := updatePlayer i (fun p => { p with snake := p.snake ++ [m] }) r
    with hr1
  have hr1f : r1.food = r.food := rfl
  have hr1p : r1.players.get? i = some { p with snake := p.snake ++ [m] } := by
    rw [hr1, updatePlayer_get?_self, hp]; rfl
  by_cases hfm : r.food = some m
  · rw [resolveEat_eats oracle m i r1 (hr1f.trans hfm)]
    refine ⟨{ p with snake := p.snake ++ [m], score := p.score + 10 },
      by rw [placeFood_players, updatePlayer_get?_self, hr1p]; rfl, ?_⟩
    rw [if_pos hfm]
    exact ⟨rfl, rfl, by simp, rfl⟩
  · rw [resolveEat_misses oracle m i r1 (fun h => hfm (hr1f.symm.trans h))]
    refine ⟨{ p with snake := (p.snake ++ [m]).tail },
      by rw [updatePlayer_get?_self, hr1p]; rfl, ?_⟩
    rw [if_neg hfm]
    refine ⟨rfl, tail_append_singleton hne, ?_, rfl⟩
    cases hs : p.snake with
    | nil => exact absurd hs hne
    | cons a t => simp [hs]

/-- C3 witness: in `eatRoom` the single player's head moves from (0, 0)
onto the food at (1, 0): score 0 becomes 10, the one-cell body becomes
two cells, and food is re-placed. -/
theorem moveStep_food_outcome_witness :
    ∃ q, (resolveOne 3 0 (occupancy eatRoom.players) eatRoom 0
        ⟨1, 0⟩).players.get? 0 = some q ∧
      (if eatRoom.food = some ⟨1, 0⟩ then
        q.score = eatP.score + 10 ∧ q.snake = eatP.snake ++ [⟨1, 0⟩] ∧
        q.snake.length = eatP.snake.length + 1 ∧
        (resolveOne 3 0 (occupancy eatRoom.players) eatRoom 0 ⟨1, 0⟩).food =
          randomFreeCell 3
            (resolveOne 3 0 (occupancy eatRoom.players) eatRoom 0
              ⟨1, 0⟩).players eatRoom.food
      else
        q.score = eatP.score ∧ q.snake = eatP.snake.tail ++ [⟨1, 0⟩] ∧
        q.snake.length = eatP.snake.length ∧
        (resolveOne 3 0 (occupancy eatRoom.players) eatRoom 0 ⟨1, 0⟩).food =
          eatRoom.food) :=
  moveStep_food_outcome 3 0 (occupancy eatRoom.players) eatRoom 0 ⟨1, 0⟩
    eatP rfl (by decide) (by decide) (by decide)

/-- C4: collision resolution uses only the pre-move occupancy set: when
two alive players' heads both move into the same cell that was vacant
before the step and in bounds, both moves succeed — both players stay
alive and both heads land on that cell. -/
theorem simultaneous_entry_both_survive (oracle : Nat) (tnow : Int)
    (r : Room) (p0 p1 : Player) (c : Cell)
    (hps : r.players = [p0, p1])
    (h0 : p0.alive = true) (h1 : p1.alive = true)
    (hc0 : nextHead p0 = some c) (hc1 : nextHead p1 = some c)
    (hocc : c ∉ occupancy r.players) (hin : InBounds c) :
    ∃ q0 q1,
      (moveStep oracle tnow r).players.get? 0 = some q0 ∧
      (moveStep oracle tnow r).players.get? 1 = some q1 ∧
      q0.alive = true ∧ q1.alive = true ∧
      q0.snake.getLast? = some c ∧ q1.snake.getLast? = some c := by
  have hwall : ¬(c.x < 0 ∨ c.y < 0 ∨ GRID ≤ c.x ∨ GRID ≤ c.y) := by
    push_neg
    exact hin
  have hnext : computeNext r.players = [(0, c), (1, c)] := by
    rw [hps]
    simp [computeNext, computeNextFrom, h0, h1, hc0, hc1]
  have hp0 : r.players.get? 0 = some p0 := by rw [hps]; rfl
  have hp1 : r.players.get? 1 = some p1 := by rw [hps]; rfl
  have hne0 : p0.snake ≠ [] := by
    intro h
    unfold nextHead at hc0
    rw [h] at hc0
    simp at hc0
  have hne1 : p1.snake ≠ [] := by
    intro h
    unfold nextHead at hc1
    rw [h] at hc1
    simp at hc1
  obtain ⟨q0, hq0, ha0, hl0⟩ :=
    resolveOne_success oracle tnow (occupancy r.players) r 0 c p0 hp0
      hwall hocc hne0
  have hp1b : (resolveOne oracle tnow (occupancy r.players) r 0
      c).players.get? 1 = some p1 := by
    rw [resolveOne_get?_ne oracle tnow (occupancy r.players) r 0 c 1
      (by decide)]
    exact hp1
  obtain ⟨q1, hq1, ha1, hl1⟩ :=
    resolveOne_success oracle tnow (occupancy r.players) _ 1 c p1 hp1b
      hwall hocc hne1
  have hq0b : (resolveOne oracle tnow (occupancy r.players)
      (resolveOne oracle tnow (occupancy r.players) r 0 c) 1
      c).players.get? 0 = some q0 := by
    rw [resolveOne_get?_ne oracle tnow (occupancy r.players) _ 1 c 0
      (by decide)]
    exact hq0
  have hms : moveStep oracle tnow r =
      resolveOne oracle tnow (occupancy r.players)
        (resolveOne oracle tnow (occupancy r.players) r 0 c) 1 c := by
    unfold moveStep
    rw [hnext]
    rfl
  rw [hms]
  exact ⟨q0, q1, hq0b, hq1, ha0.trans h0, ha1.trans h1, hl0, hl1⟩

/-- C4 witness: in `passRoom` both players' heads move into the vacant
cell (1, 1) in the same step and both survive with their heads there. -/
theorem simultaneous_entry_both_survive_witness :
    ∃ q0 q1,
      (moveStep 0 0 passRoom).players.get? 0 = some q0 ∧
      (moveStep 0 0 passRoom).players.get? 1 = some q1 ∧
      q0.alive = true ∧ q1.alive = true ∧
      q0.snake.getLast? = some ⟨1, 1⟩ ∧ q1.snake.getLast? = some ⟨1, 1⟩ :=
  simultaneous_entry_both_survive 0 0 passRoom passP0 passP1 ⟨1, 1⟩ rfl
    rfl rfl (by decide) (by decide) (by decide) (by decide)

/-- C9: spawn placement only ever produces in-bounds bodies (every cell
of any `safeSpawn` result is within `[0, GRID)` on both axes), and a
movement step preserves the invariant that every alive player's body is
in bounds — an out-of-bounds head kills the player instead of being
appended. -/
theorem alive_bodies_stay_in_bounds (oracle2 : Nat → Nat × Nat)
    (ps : List Player) (food : Option Cell) (c : Cell) (oracle : Nat)
    (tnow : Int) (r : Room)
    (hc : c ∈ (safeSpawn oracle2 ps food).snake)
    (hr : AliveInBounds r.players) :
    InBounds c ∧ AliveInBounds (moveStep oracle tnow r).players :=
  ⟨safeSpawn_inBounds oracle2 ps food c hc,
   aliveInBounds_resolveAll oracle tnow (occupancy r.players)
     (computeNext r.players) r hr⟩

/-- C9 witness: the first preset spawn cell on an empty board, and a
movement step of `passRoom`. -/
theorem alive_bodies_stay_in_bounds_witness :
    InBounds ⟨1, 3⟩ ∧ AliveInBounds (moveStep 0 7 passRoom).players :=
  alive_bodies_stay_in_bounds (fun _ => (0, 0)) [] none ⟨1, 3⟩ 0 7 passRoom
    (by decide) (by decide)

/-- C1 counterexample: a `start` request on a room in state `ended`
reaches `startRound`, whose guard only checks for `running`: the room
transitions back to `running`, `startedAt`/`endsAt` are reset and the
tick driver is restarted — `ended` is not terminal. -/
theorem start_after_ended_restarts_cex :
    endedRoom.state = RState.ended ∧
    (startRound 5 (fun _ _ => (0, 0)) 0 endedRoom).state = RState.running ∧
    (startRound 5 (fun _ _ => (0, 0)) 0 endedRoom).startedAt = some 5 ∧
    (startRound 5 (fun _ _ => (0, 0)) 0 endedRoom).tickRunning = true :=
  ⟨rfl, rfl, rfl, rfl⟩

/-- C1 amended: `startRound` is a no-op only when the room is already
`running`; received in state `ended` (as in `lobby`) a start request
moves the room to `running`, resets `startedAt`/`endsAt` and restarts
the tick driver, so `ended` is not terminal against start requests. -/
theorem startRound_after_ended (tnow : Int) (oracle : Nat → Nat → Nat × Nat)
    (fc : Nat) (r : Room) (h : r.state = RState.ended) :
    (startRound tnow oracle fc r).state = RState.running ∧
    (startRound tnow oracle fc r).startedAt = some tnow ∧
    (startRound tnow oracle fc r).endsAt = some (tnow + ROUND_MS) ∧
    (startRound tnow oracle fc r).tickRunning = true := by
  unfold startRound
  rw [if_neg (fun hc => by rw [h] at hc; exact RState.noConfusion hc)]
  refine ⟨?_, ?_, ?_, rfl⟩
  · exact (respawnFrom_fields oracle _ _ _).1
  · exact (respawnFrom_fields oracle _ _ _).2.1
  · exact (respawnFrom_fields oracle _ _ _).2.2

/-- C1 witness: the amended behaviour on the concrete ended room. -/
theorem startRound_after_ended_witness :
    (startRound 5 (fun _ _ => (0, 0)) 0 endedRoom).state = RState.running ∧
    (startRound 5 (fun _ _ => (0, 0)) 0 endedRoom).startedAt = some 5 ∧
    (startRound 5 (fun _ _ => (0, 0)) 0 endedRoom).endsAt =
      some (5 + ROUND_MS) ∧
    (startRound 5 (fun _ _ => (0, 0)) 0 endedRoom).tickRunning = true :=
  startRound_after_ended 5 (fun _ _ => (0, 0)) 0 endedRoom rfl

end SnakeMP
